import Mathlib

/-!
Shallow embedding of the BottleneckedHTTPAPI thread-executor core
(`src/BottleneckedHTTPAPI/thread_executor/abstract_executor.py`,
`request_and_response.py`, `router.py`).

Modelling conventions:
* Wall-clock times (`time.time()`) are passed explicitly as `Nat` arguments.
* `static_state` (Python `Any`) is a type parameter `σ`.
* Python dicts are association lists with insertion-order semantics:
  update keeps the position of an existing key, new keys append at the end.
* Python exceptions are surfaced as `Option PyErr` / `Except PyErr _`
  alongside the state reached at the moment of the raise (Python mutations
  performed before a raise persist).
* The source keys some dict entries by a *response object* rather than by a
  token string (`abstract_executor.py` lines 195 and 206).  Dict keys are
  therefore a sum `DKey` of token strings and object identities; fresh object
  identities are drawn from an allocation counter in the state.
* SHA-256 is modelled as an abstract function `HashFn` of the pair
  (previous-token, counter): in the source the hash input is the byte string
  `prev_token.encode() + itoken.to_bytes(16) + seed` whose three fields have
  fixed widths (the seed is fixed per executor), so the byte-level input is in
  bijection with the pair and the initial no-previous-token branch.
-/

namespace BHA

/-- Python exception kinds raised by the embedded code paths. -/
inductive PyErr where
  | typeError : PyErr
  | valueError : PyErr
  | keyError : PyErr
  | attributeError : PyErr
deriving DecidableEq, Repr

/-- Dictionary key: either a token string, or the identity of a Python object
(used because the source sometimes keys dicts by a response object). -/
inductive DKey where
  | tok : String → DKey
  | obj : Nat → DKey
deriving DecidableEq, Repr

/-- Lookup in an insertion-ordered association list (Python `d[k]` / `d.get(k)`). -/
def dlookup {κ ν : Type} [DecidableEq κ] : List (κ × ν) → κ → Option ν
  | [], _ => none
  | (k, v) :: rest, q => if k = q then some v else dlookup rest q

/-- Python `k in d`. -/
def dcontains {κ ν : Type} [DecidableEq κ] (l : List (κ × ν)) (q : κ) : Bool :=
  (dlookup l q).isSome

/-- Python `d[k] = v`: update in place if present, else append. -/
def dinsert {κ ν : Type} [DecidableEq κ] : List (κ × ν) → κ → ν → List (κ × ν)
  | [], q, w => [(q, w)]
  | (k, v) :: rest, q, w => if k = q then (k, w) :: rest else (k, v) :: dinsert rest q w

/-- Python `d.pop(k)` (key removal part): removes the first binding of `q`. -/
def derase {κ ν : Type} [DecidableEq κ] : List (κ × ν) → κ → List (κ × ν)
  | [], _ => []
  | (k, v) :: rest, q => if k = q then rest else (k, v) :: derase rest q

/-- Python `x in l` for a list. -/
def lelem {α : Type} [DecidableEq α] (x : α) : List α → Bool
  | [] => false
  | a :: rest => if a = x then true else lelem x rest

/-- Python `list.remove(x)`: removes the first occurrence. -/
def lremove {α : Type} [DecidableEq α] : List α → α → List α
  | [], _ => []
  | a :: rest, x => if a = x then rest else a :: lremove rest x

/-- `AbstractRequest`: the base class holds only the `_static_state` slot. -/
structure AbstractRequest (σ : Type) where
  static_state : Option σ
deriving DecidableEq, Repr

/-- `AbstractResponse` value: cancelled flag, optional error message, static state. -/
structure AbstractResponse (σ : Type) where
  cancelled : Bool
  error_msg : Option String
  static_state : Option σ
deriving DecidableEq, Repr

/-- `ErrorResponse(error_msg)`: `super().__init__(False, error_msg)`. -/
def ErrorResponse (σ : Type) (msg : String) : AbstractResponse σ :=
  ⟨false, some msg, none⟩

/-- `CancelledResponse()`: `super().__init__(True, "Response is cancelled!")`. -/
def CancelledResponse (σ : Type) : AbstractResponse σ :=
  ⟨true, some "Response is cancelled!", none⟩

/-- `AbstractResponse.has_error`: whether `error_msg` is not `None`. -/
def has_error {σ : Type} (r : AbstractResponse σ) : Bool :=
  r.error_msg.isSome

/-- `AbstractResponse.is_cancelled`. -/
def is_cancelled {σ : Type} (r : AbstractResponse σ) : Bool :=
  r.cancelled

/-- `AbstractResponse.is_successful_response`: `not (has_error or is_cancelled)`. -/
def is_successful_response {σ : Type} (r : AbstractResponse σ) : Bool :=
  !(has_error r || is_cancelled r)

/-- `AbstractResponse._set_static_state` (functional update; in Python the
stored object is mutated in place, which is the same thing for a dict value). -/
def set_static_state {σ : Type} (r : AbstractResponse σ) (s : Option σ) : AbstractResponse σ :=
  { r with static_state := s }

/-- `AbstractResponse.errorify(msg)`. -/
def errorify {σ : Type} (r : AbstractResponse σ) (msg : String) : AbstractResponse σ :=
  { r with error_msg := some msg }

/-- Number of the three derived predicates that hold on a response. -/
def statusCount {σ : Type} (r : AbstractResponse σ) : Nat :=
  (if is_successful_response r then 1 else 0)
    + (if has_error r then 1 else 0)
    + (if is_cancelled r then 1 else 0)

/-- Abstract model of the SHA-256 step used by `generate_next_token`:
`sha256(prev.encode() + itoken.to_bytes(16, "big", signed=True) + seed)` is a
function of the pair (previous token or none for the initial branch, counter);
the seed is fixed per executor and absorbed into the function. -/
abbrev HashFn : Type := Option String × Nat → String

/-- State of one `AbstractSingleThreadExecutor` (field names follow the source;
the three locks are not represented: the embedding is sequential). -/
structure ExecState (σ : Type) where
  itoken : Nat
  strtoken : String
  external_requests_to_cancel : List String
  external_requests_queue_data : List (String × AbstractRequest σ)
  external_requests_queue : List String
  external_responses : List (DKey × AbstractResponse σ)
  external_request_response_previous_action : List (DKey × Nat)
  internal_requests_queue : List String
  internal_requests_data : List (String × AbstractRequest σ)
  internal_responses : List (DKey × AbstractResponse σ)
  running : Bool
  internal_iter_count : Nat
  old_cleanup_time : Nat
  max_handle_requests_and_responses : Nat
  obj_counter : Nat
deriving DecidableEq, Repr

/-- The retry loop of `generate_next_token`: first candidate hashes the current
`strtoken`, each retry hashes the previous candidate, until the candidate is
not a key of the lifecycle dict.  Fuel makes the `while` loop total. -/
def token_chain_loop (h : HashFn) (lifecycle : List (DKey × Nat)) (it : Nat) :
    Nat → String → Option String
  | 0, _ => none
  | Nat.succ fuel, p =>
    let n := h (some p, it)
    if dcontains lifecycle (DKey.tok n) then token_chain_loop h lifecycle it fuel n
    else some n

/-- `generate_next_token` for the steady state (`__strtoken` is never `None`
after `__init__`, which performs the `None` branch — see `initExec`). -/
def generate_next_token {σ : Type} (h : HashFn) (fuel : Nat) (s : ExecState σ) :
    Option (ExecState σ) :=
  let it := s.itoken + 1
  match token_chain_loop h s.external_request_response_previous_action it fuel s.strtoken with
  | none => none
  | some n => some { s with itoken := it, strtoken := n }

/-- `__init__`: counter starts at 0, `generate_next_token` is called once with
`__strtoken is None`, taking the initial branch `sha256(itoken ‖ seed)`,
modelled as `h (none, 1)`. -/
def initExec (σ : Type) (h : HashFn) (maxH : Nat) (cleanupT : Nat) : ExecState σ :=
  { itoken := 1
    strtoken := h (none, 1)
    external_requests_to_cancel := []
    external_requests_queue_data := []
    external_requests_queue := []
    external_responses := []
    external_request_response_previous_action := []
    internal_requests_queue := []
    internal_requests_data := []
    internal_responses := []
    running := false
    internal_iter_count := 0
    old_cleanup_time := cleanupT
    max_handle_requests_and_responses := maxH
    obj_counter := 0 }

/-- Result of `queue_request`: `PoolFullException`, nontermination of the token
generation loop (fuel exhaustion; the mutations before the loop persist), or
success with the returned token. -/
inductive QueueOutcome (σ : Type) where
  | poolFull : QueueOutcome σ
  | fuelOut : ExecState σ → QueueOutcome σ
  | ok : String → ExecState σ → QueueOutcome σ
deriving DecidableEq, Repr

/-- `queue_request`: raise `PoolFullException` when the lifecycle dict already
holds `max_handle_requests_and_responses` keys; otherwise hand out the current
`strtoken`, append it to the external queue, record data and lifecycle
timestamp, and generate the next token. -/
def queue_request {σ : Type} (h : HashFn) (fuel : Nat) (s : ExecState σ)
    (x : AbstractRequest σ) (now : Nat) : QueueOutcome σ :=
  if s.max_handle_requests_and_responses ≤ s.external_request_response_previous_action.length
  then .poolFull
  else
    let t := s.strtoken
    let s1 := { s with
      external_requests_queue := s.external_requests_queue ++ [t]
      external_requests_queue_data := dinsert s.external_requests_queue_data t x
      external_request_response_previous_action :=
        dinsert s.external_request_response_previous_action (DKey.tok t) now }
    match generate_next_token h fuel s1 with
    | none => .fuelOut s1
    | some s2 => .ok t s2

/-- `poll_response`: unknown token (not a lifecycle key) yields an
`ErrorResponse`; a known token with no stored response yields `none`; a stored
response is removed together with its lifecycle entry and returned. -/
def poll_response {σ : Type} (s : ExecState σ) (tok : String) :
    Option (AbstractResponse σ) × ExecState σ :=
  if dcontains s.external_request_response_previous_action (DKey.tok tok) then
    match dlookup s.external_responses (DKey.tok tok) with
    | none => (none, s)
    | some r =>
      (some r, { s with
        external_responses := derase s.external_responses (DKey.tok tok)
        external_request_response_previous_action :=
          derase s.external_request_response_previous_action (DKey.tok tok) })
  else
    (some (ErrorResponse σ "Invalid token! Tokens must be obtained via queue_request!"), s)

/-- `cancel_request`: append the token to the cancellation list. -/
def cancel_request {σ : Type} (s : ExecState σ) (tok : String) : ExecState σ :=
  { s with external_requests_to_cancel := s.external_requests_to_cancel ++ [tok] }

/-- `accept`: raise `ValueError` when the token is not in the internal queue;
otherwise remove it from the queue, pop its data (a missing data entry would be
a `KeyError`, after the queue removal already happened), store the response and
set its static state from the request (the source mutates the stored object
after insertion, which is the same dict content). -/
def accept {σ : Type} (s : ExecState σ) (token : String) (response : AbstractResponse σ) :
    ExecState σ × Option PyErr :=
  if lelem token s.internal_requests_queue then
    let s1 := { s with internal_requests_queue := lremove s.internal_requests_queue token }
    match dlookup s.internal_requests_data token with
    | none => (s1, some .keyError)
    | some dat =>
      ({ s1 with
          internal_requests_data := derase s.internal_requests_data token
          internal_responses := dinsert s.internal_responses (DKey.tok token)
            (set_static_state response dat.static_state) }, none)
  else
    (s, some .valueError)

/-- `reject`: as `accept`, storing `ErrorResponse(error_reason)`. -/
def reject {σ : Type} (s : ExecState σ) (token : String) (error_reason : String) :
    ExecState σ × Option PyErr :=
  if lelem token s.internal_requests_queue then
    let s1 := { s with internal_requests_queue := lremove s.internal_requests_queue token }
    match dlookup s.internal_requests_data token with
    | none => (s1, some .keyError)
    | some dat =>
      ({ s1 with
          internal_requests_data := derase s.internal_requests_data token
          internal_responses := dinsert s.internal_responses (DKey.tok token)
            (set_static_state (ErrorResponse σ error_reason) dat.static_state) }, none)
  else
    (s, some .valueError)

/-- First half of `__move_external_to_internal`: drain the snapshot of the
external queue, popping each token's data (`dict.pop` raises `KeyError` on a
missing key, with the earlier pops already performed).  Returns the remaining
external data, the drained (token, request) pairs in order, and the error. -/
def drain_external_data {σ : Type} :
    List String → List (String × AbstractRequest σ) → List (String × AbstractRequest σ) →
    List (String × AbstractRequest σ) × List (String × AbstractRequest σ) × Option PyErr
  | [], d, acc => (d, acc, none)
  | t :: rest, d, acc =>
    match dlookup d t with
    | none => (d, acc, some .keyError)
    | some x => drain_external_data rest (derase d t) (acc ++ [(t, x)])

/-- `__move_external_to_internal`: clear the external queue, pop all drained
request data, then append everything to the internal queue and data. -/
def move_external_to_internal {σ : Type} (s : ExecState σ) : ExecState σ × Option PyErr :=
  let res := drain_external_data s.external_requests_queue s.external_requests_queue_data []
  let s1 := { s with external_requests_queue := [], external_requests_queue_data := res.1 }
  match res.2.2 with
  | some e => (s1, some e)
  | none =>
    ({ s1 with
        internal_requests_queue := s1.internal_requests_queue ++ res.2.1.map Prod.fst
        internal_requests_data :=
          res.2.1.foldl (fun d p => dinsert d p.1 p.2) s1.internal_requests_data }, none)

/-- `__move_internal_to_external`: drain `internal_responses` into
`external_responses`, stamping the lifecycle dict with the current time for
each drained key (keys can be object identities — see `__handle_cancellations`). -/
def move_internal_to_external {σ : Type} (s : ExecState σ) (now : Nat) : ExecState σ :=
  let responses := s.internal_responses
  let s1 := { s with internal_responses := [] }
  responses.foldl
    (fun st p =>
      { st with
          external_responses := dinsert st.external_responses p.1 p.2
          external_request_response_previous_action :=
            dinsert st.external_request_response_previous_action p.1 now })
    s1

/-- Internal-queue pass of `__handle_cancellations` (source lines 186–195).
The user hook `_handle_request_cancel` has no effect on the executor state.
Line 195 stores the cancelled response keyed by the *response object*
(`self.__internal_responses[response] = response`), modelled as a fresh
`DKey.obj` identity. -/
def cancel_internal_pass {σ : Type} :
    List String → ExecState σ → ExecState σ × Option PyErr
  | [], s => (s, none)
  | t :: rest, s =>
    if lelem t s.internal_requests_queue then
      let s1 := { s with internal_requests_queue := lremove s.internal_requests_queue t }
      match dlookup s.internal_requests_data t with
      | none => (s1, some .keyError)
      | some dat =>
        let resp := set_static_state (CancelledResponse σ) dat.static_state
        cancel_internal_pass rest
          { s1 with
              internal_requests_data := derase s.internal_requests_data t
              internal_responses := dinsert s.internal_responses (DKey.obj s.obj_counter) resp
              obj_counter := s.obj_counter + 1 }
    else cancel_internal_pass rest s

/-- External-queue pass of `__handle_cancellations` (source lines 197–208).
Line 206 keys `external_responses` by the response object; line 208 then reads
`response.token`, an attribute `AbstractResponse` does not define, raising
`AttributeError` after the dict mutations already happened. -/
def cancel_external_pass {σ : Type} (_now : Nat) :
    List String → ExecState σ → ExecState σ × Option PyErr
  | [], s => (s, none)
  | t :: rest, s =>
    if lelem t s.external_requests_queue then
      let s1 := { s with external_requests_queue := lremove s.external_requests_queue t }
      match dlookup s.external_requests_queue_data t with
      | none => (s1, some .keyError)
      | some dat =>
        let resp := set_static_state (CancelledResponse σ) dat.static_state
        ({ s1 with
            external_requests_queue_data := derase s.external_requests_queue_data t
            external_responses := dinsert s.external_responses (DKey.obj s.obj_counter) resp
            obj_counter := s.obj_counter + 1 }, some .attributeError)
    else cancel_external_pass _now rest s

/-- `__handle_cancellations`: drain the cancellation list; if nonempty, run the
internal-queue pass, then the external-queue pass. -/
def handle_cancellations {σ : Type} (s : ExecState σ) (now : Nat) : ExecState σ × Option PyErr :=
  let toCancel := s.external_requests_to_cancel
  let s0 := { s with external_requests_to_cancel := [] }
  if toCancel.isEmpty then (s0, none)
  else
    let r1 := cancel_internal_pass toCancel s0
    match r1.2 with
    | some e => (r1.1, some e)
    | none => cancel_external_pass now toCancel r1.1

/-- A command the user implementation of `_handle_all_requests` issues on the
executor: `self.accept(token, response)` or `self.reject(token, msg)`. -/
inductive UserCmd (σ : Type) where
  | acceptCmd : String → AbstractResponse σ → UserCmd σ
  | rejectCmd : String → String → UserCmd σ
deriving DecidableEq, Repr

/-- Apply the user's `accept`/`reject` calls in order; an exception escapes
`_handle_all_requests` immediately. -/
def apply_user_cmds {σ : Type} :
    List (UserCmd σ) → ExecState σ → ExecState σ × Option PyErr
  | [], s => (s, none)
  | c :: rest, s =>
    let r := match c with
      | .acceptCmd t resp => accept s t resp
      | .rejectCmd t m => reject s t m
    match r.2 with
    | some e => (r.1, some e)
    | none => apply_user_cmds rest r.1

/-- A user implementation of `_handle_all_requests`, deciding its
`accept`/`reject` calls from the snapshots of the internal queue and data. -/
abbrev Handler (σ : Type) : Type :=
  List String → List (String × AbstractRequest σ) → List (UserCmd σ)

/-- The user-processing step of `_process_iteration`: snapshot, run the handler,
and on any escaping exception log critically and stop the executor. -/
def handle_all_requests_step {σ : Type} (handler : Handler σ) (s : ExecState σ) : ExecState σ :=
  let cmds := handler s.internal_requests_queue s.internal_requests_data
  let r := apply_user_cmds cmds s
  match r.2 with
  | some _ => { r.1 with running := false }
  | none => r.1

/-- Body of `cleanup_old_responses` over a snapshot of the response keys
(`set(...)` iteration is modelled in insertion order); a response key missing
from the lifecycle dict would raise `KeyError` on the indexing at line 419. -/
def cleanup_pass {σ : Type} (now cleanupTime : Nat) :
    List DKey → ExecState σ → ExecState σ × Option PyErr
  | [], s => (s, none)
  | k :: rest, s =>
    match dlookup s.external_request_response_previous_action k with
    | none => (s, some .keyError)
    | some prev =>
      if cleanupTime < now - prev then
        cleanup_pass now cleanupTime rest
          { s with
              external_request_response_previous_action :=
                derase s.external_request_response_previous_action k
              external_responses := derase s.external_responses k }
      else cleanup_pass now cleanupTime rest s

/-- `cleanup_old_responses(time_override)`. -/
def cleanup_old_responses {σ : Type} (s : ExecState σ) (time_override : Option Nat)
    (now : Nat) : ExecState σ × Option PyErr :=
  cleanup_pass now (time_override.getD s.old_cleanup_time) (s.external_responses.map Prod.fst) s

/-- Sequencing of iteration steps: a Python exception raised by an earlier
step skips the later ones (it propagates out of `_process_iteration`). -/
def pstep {σ : Type} (f : ExecState σ → ExecState σ × Option PyErr)
    (pr : ExecState σ × Option PyErr) : ExecState σ × Option PyErr :=
  match pr.2 with
  | some _ => pr
  | none => f pr.1

/-- `_process_iteration`: bump the iteration counter, transfer external →
internal and internal → external, run TTL cleanup every 10th iteration, run the
cancellation pass, then the user processing step.  An exception from the
transfer/cleanup/cancellation steps escapes (the thread runner logs it and the
loop continues); an exception from the user step stops the executor. -/
def process_iteration {σ : Type} (handler : Handler σ) (s : ExecState σ) (now : Nat) :
    ExecState σ × Option PyErr :=
  let s0 := { s with internal_iter_count := s.internal_iter_count + 1 }
  let r := pstep (fun st => handle_cancellations st now)
    (pstep (fun st => if st.internal_iter_count % 10 == 0
        then cleanup_old_responses st none now else (st, none))
      (pstep (fun st => (move_internal_to_external st now, none))
        (move_external_to_internal s0)))
  match r.2 with
  | some e => (r.1, some e)
  | none => (handle_all_requests_step handler r.1, none)

/-- One producer-side or worker-side event in an executor run. -/
inductive ExecOp (σ : Type) where
  | opQueue : AbstractRequest σ → Nat → ExecOp σ
  | opPoll : String → ExecOp σ
  | opCancel : String → ExecOp σ
  | opIterate : Nat → ExecOp σ
  | opCleanup : Option Nat → Nat → ExecOp σ

/-- Run a list of events, collecting the tokens returned by the successful
`queue_request` calls (a `PoolFullException` is caught by the producer and the
run continues; fuel exhaustion of the token generator aborts the run). -/
def run_ops {σ : Type} (h : HashFn) (fuel : Nat) (handler : Handler σ) :
    ExecState σ → List (ExecOp σ) → Option (ExecState σ × List String)
  | s, [] => some (s, [])
  | s, op :: rest =>
    match op with
    | .opQueue x now =>
      match queue_request h fuel s x now with
      | .poolFull => run_ops h fuel handler s rest
      | .fuelOut _ => none
      | .ok t s2 => (run_ops h fuel handler s2 rest).map (fun p => (p.1, t :: p.2))
    | .opPoll t => run_ops h fuel handler (poll_response s t).2 rest
    | .opCancel t => run_ops h fuel handler (cancel_request s t) rest
    | .opIterate now => run_ops h fuel handler (process_iteration handler s now).1 rest
    | .opCleanup o now => run_ops h fuel handler (cleanup_old_responses s o now).1 rest

/-!
Router (`router.py`), pool mode.  The Python-level type errors in its code
paths are modelled explicitly:
* `hashlib.sha256(k)` requires a bytes-like object; the source passes the tag
  `str` directly, which raises `TypeError` (line 42);
* `self._hashlen >= token` compares an `int` with a `str`, an unsupported
  comparison raising `TypeError` (lines 248 and 284);
* `ErrorResponse(token, "Invalid token format.")` passes two positional
  arguments to a constructor declared with one, raising `TypeError`
  (lines 249 and 253).
-/

/-- `hashlib.sha256(k).hexdigest()` applied to a `str` tag: raises `TypeError`
because `sha256` only accepts bytes-like input. -/
def sha256HexOfPyStr (_k : String) : Except PyErr String :=
  .error .typeError

/-- Pool-mode fields of `SingleThreadExecutorRouterWrapper`. -/
structure RouterPoolState where
  exec_hash_to_exec : List (String × String)
  exec_to_exec_hash : List (String × String)
  hashlen : Option Nat
deriving DecidableEq, Repr

/-- The tag-hashing loop of the pool-mode constructor (source lines 41–49):
hash each tag, check the width against the previous ones, reject duplicate
hashes, and populate the two maps. -/
def routerInitPoolLoop : List String → RouterPoolState → Except PyErr RouterPoolState
  | [], st => .ok st
  | k :: rest, st =>
    match sha256HexOfPyStr k with
    | .error e => .error e
    | .ok khash =>
      if st.hashlen.getD khash.length ≠ khash.length then .error .valueError
      else if dcontains st.exec_hash_to_exec khash then .error .valueError
      else
        routerInitPoolLoop rest
          { exec_hash_to_exec := dinsert st.exec_hash_to_exec khash k
            exec_to_exec_hash := dinsert st.exec_to_exec_hash k khash
            hashlen := some khash.length }

/-- Pool-mode construction of the wrapper over the given executor tags. -/
def routerInitPool (tags : List String) : Except PyErr RouterPoolState :=
  routerInitPoolLoop tags ⟨[], [], none⟩

/-- Python 3 `int >= str`: unsupported operand comparison, raises `TypeError`. -/
def pyGeNatStr (_n : Nat) (_s : String) : Except PyErr Bool :=
  .error .typeError

/-- `ErrorResponse(token, "Invalid token format.")` with two positional
arguments: the declared constructor takes only `error_msg`, so the call raises
`TypeError`. -/
def pyErrorResponseTwoArgs (σ : Type) (_tokenArg : String) (_msg : String) :
    Except PyErr (AbstractResponse σ) :=
  .error .typeError

/-- Pool-mode token splitting of `poll_response` (source lines 248–254): guard
`self._hashlen >= token`, split off the hash prefix, resolve the executor tag;
unknown prefixes are supposed to yield an error response.  The result is
either a response returned directly or the resolved (tag, inner-token) pair. -/
def routerPoolSplitToken (σ : Type) (hashlen : Nat) (hashToTag : List (String × String))
    (token : String) : Except PyErr (Option (AbstractResponse σ) ⊕ (String × String)) :=
  match pyGeNatStr hashlen token with
  | .error e => .error e
  | .ok true => (pyErrorResponseTwoArgs σ token "Invalid token format.").map (fun r => .inl (some r))
  | .ok false =>
    let ehash := (token.toList.take hashlen).asString
    let rest := (token.toList.drop hashlen).asString
    match dlookup hashToTag ehash with
    | none => (pyErrorResponseTwoArgs σ token "Invalid token format.").map (fun r => .inl (some r))
    | some tag => .ok (.inr (tag, rest))

/-- Pool-mode token composition of the router's `queue_request` (source lines
167–170): the returned token is `exec_hash ‖ inner_token`. -/
def routerComposeToken (typehash pretok : String) : String :=
  typehash ++ pretok

/-!
Concrete fixtures.  `cHash` instantiates the abstract SHA-256 model with a
function whose output determines the counter (`cHash (p, c)` is the string
`"x"` repeated `c` times), which is all the uniqueness argument needs.
-/

/-- Concrete hash instance for fixtures: determined by (and determining) the
counter component. -/
def cHash : HashFn := fun pc => (List.replicate pc.2 'x').asString

/-- State reached by a `QueueOutcome`, with a fallback for `poolFull`
(`poolFull` leaves the state unchanged, so the fallback is the input state). -/
def outcomeState {σ : Type} (o : QueueOutcome σ) (fallback : ExecState σ) : ExecState σ :=
  match o with
  | .ok _ s => s
  | .fuelOut s => s
  | .poolFull => fallback

/-- Token returned by a successful `QueueOutcome`. -/
def outcomeToken {σ : Type} (o : QueueOutcome σ) : String :=
  match o with
  | .ok t _ => t
  | _ => ""

/-- Fresh executor fixture: capacity 10, TTL 300. -/
def execFix : ExecState Nat := initExec Nat cHash 10 300

/-- Fixture: one request with `static_state = 42` queued at time 0. -/
def bugQueued : QueueOutcome Nat := queue_request cHash 9 execFix ⟨some 42⟩ 0

/-- Executor state after the queue-while-idle submit. -/
def bugS1 : ExecState Nat := outcomeState bugQueued execFix

/-- The same state after `cancel_request` of the returned token (the token is
`"x"`, still in the external queue: never handed off to the worker). -/
def bugS2 : ExecState Nat := cancel_request bugS1 (outcomeToken bugQueued)

/-- The worker cancellation pass over that state, at time 1. -/
def bugPass : ExecState Nat × Option PyErr := handle_cancellations bugS2 1

/-- Invariant: every key of `external_responses` is a key of the lifecycle dict. -/
def responses_keys_in_lifecycle {σ : Type} (s : ExecState σ) : Bool :=
  s.external_responses.all (fun p => dcontains s.external_request_response_previous_action p.1)

/-- Invariant: no token is both in `external_requests_queue_data` and in
`external_responses`. -/
def no_data_response_overlap {σ : Type} (s : ExecState σ) : Bool :=
  s.external_requests_queue_data.all (fun p => !(dcontains s.external_responses (DKey.tok p.1)))

/-- The external-state invariant of the specification (§3, invariants 2 and 3). -/
def external_invariant {σ : Type} (s : ExecState σ) : Bool :=
  responses_keys_in_lifecycle s && no_data_response_overlap s

/-- Handler fixture: accept every snapshot token with a plain success response. -/
def acceptHandler : Handler Nat :=
  fun queue _ => queue.map (fun t => .acceptCmd t ⟨false, none, none⟩)

/-- Handler fixture: reject every snapshot token with message `"bad"`. -/
def rejectHandler : Handler Nat :=
  fun queue _ => queue.map (fun t => .rejectCmd t "bad")

/-- Fixture: a request with `static_state = 7` queued at time 0 (round-trip). -/
def rtS1 : ExecState Nat := outcomeState (queue_request cHash 9 execFix ⟨some 7⟩ 0) execFix

/-- Round-trip accept path, state after two worker iterations (handoff +
accept, then response transfer): the response is stored, not yet polled. -/
def rtReadyAccept : ExecState Nat :=
  (process_iteration acceptHandler ((process_iteration acceptHandler rtS1 1).1) 2).1

/-- Round-trip accept path: poll after the two iterations. -/
def rtAcceptPolled : Option (AbstractResponse Nat) :=
  (poll_response rtReadyAccept "x").1

/-- Round-trip reject path: same shape with the rejecting handler. -/
def rtRejectPolled : Option (AbstractResponse Nat) :=
  (poll_response ((process_iteration rejectHandler
    ((process_iteration rejectHandler rtS1 1).1) 2).1) "x").1

/-- C1: the claim says the cancellation pass removes a still-queued token from
`external_queue` and `external_request_data`, stores a `CancelledResponse`
keyed by that token in `external_responses` with a refreshed lifecycle
timestamp, so that polling returns the cancelled response.  On the code, the
pass does remove the token from the queue and data, but stores the response
keyed by the response *object* (not the token), raises `AttributeError`
reading the nonexistent `response.token` before refreshing the timestamp, and
a subsequent `poll_response` of the token returns `none` instead of the
cancelled response. -/
theorem C1_cancel_while_queued_code_bug :
    bugPass.2 = some PyErr.attributeError
    ∧ bugPass.1.external_requests_queue = []
    ∧ dlookup bugPass.1.external_requests_queue_data "x" = none
    ∧ dlookup bugPass.1.external_responses (DKey.tok "x") = none
    ∧ dcontains bugPass.1.external_responses (DKey.obj 0) = true
    ∧ dlookup bugPass.1.external_request_response_previous_action (DKey.tok "x") = some 0
    ∧ (poll_response bugPass.1 "x").1 = none := by
  decide

/-- C5: the claim says that after every public operation and worker step,
every key of `external_responses` is a key of `external_lifecycle` and no
token is simultaneously in `external_request_data` and `external_responses`.
On the code, after `queue_request`, `cancel_request` and one worker
cancellation pass, `external_responses` holds the cancelled response under an
object key with no lifecycle entry, so the invariant is `false`. -/
theorem C5_external_invariant_code_bug :
    external_invariant bugPass.1 = false
    ∧ bugPass.2 = some PyErr.attributeError := by
  decide

/-- C9: the claim says the response retrievable for a token carries the
request's `static_state` in all three outcomes.  On the code, the accept and
reject outcomes do round-trip the static state (first two conjuncts), but in
the cancellation outcome the `CancelledResponse` — although it does carry the
static state — is stored under a response-object key after an
`AttributeError`, so `poll_response` of the token returns `none` and the
cancelled response is never retrievable. -/
theorem C9_static_state_round_trip_code_bug :
    rtAcceptPolled = some ⟨false, none, some 7⟩
    ∧ rtRejectPolled = some ⟨false, some "bad", some 7⟩
    ∧ dlookup bugPass.1.external_responses (DKey.obj 0)
        = some ⟨true, some "Response is cancelled!", some 42⟩
    ∧ (poll_response bugPass.1 "x").1 = none := by
  decide

/-- C6 counterexample: the claim says exactly one of `is_successful_response`,
`has_error`, `is_cancelled` holds on every framework response; on
`CancelledResponse` (error_msg is set to `"Response is cancelled!"`) both
`has_error` and `is_cancelled` hold, so the count is 2, not 1. -/
theorem C6_exactly_one_counterexample :
    ¬ statusCount (CancelledResponse Nat) = 1
    ∧ statusCount (CancelledResponse Nat) = 2 := by
  decide

/-- C6 amended: for every response, `is_successful_response` holds iff neither
`has_error` nor `is_cancelled` does; an `ErrorResponse` satisfies exactly one
of the three predicates, but a `CancelledResponse` satisfies both `has_error`
and `is_cancelled` (count 2), so the three predicates are not mutually
exclusive on cancelled responses. -/
theorem C6_amended_predicates (σ : Type) (r : AbstractResponse σ) (msg : String) :
    (is_successful_response r = true ↔ (has_error r = false ∧ is_cancelled r = false))
    ∧ statusCount (ErrorResponse σ msg) = 1
    ∧ has_error (CancelledResponse σ) = true
    ∧ is_cancelled (CancelledResponse σ) = true
    ∧ statusCount (CancelledResponse σ) = 2 := by
  refine ⟨?_, rfl, rfl, rfl, rfl⟩
  cases h1 : has_error r <;> cases h2 : is_cancelled r <;>
    simp [is_successful_response, h1, h2]

/-- C7: the claim says pool-mode construction hashes each executor tag to a
fixed-width prefix later prepended to inner tokens.  On the code, the
constructor calls `hashlib.sha256(k)` on the tag `str` itself, which raises
`TypeError` for every nonempty pool, so no prefix width is ever established
and the token concatenation never executes. -/
theorem C7_pool_mode_construction_code_bug (tags : List String) (h : tags ≠ []) :
    routerInitPool tags = .error .typeError := by
  cases tags with
  | nil => exact absurd rfl h
  | cons k rest => rfl

/-- Witness for C7 at the one-tag pool `["A"]`. -/
theorem C7_pool_mode_construction_code_bug_witness :
    routerInitPool ["A"] = .error .typeError :=
  C7_pool_mode_construction_code_bug ["A"] (by decide)

/-- C8: the claim says pool-mode `poll_response` splits the token and returns
an error response (without raising) for short or unknown-prefix tokens.  On
the code, the guard `self._hashlen >= token` compares an `int` with a `str`,
raising `TypeError` for every input token before any splitting happens (and
the error-response branches would themselves raise `TypeError` by calling
`ErrorResponse` with two positional arguments). -/
theorem C8_pool_mode_poll_split_code_bug (hashlen : Nat)
    (hashToTag : List (String × String)) (token : String) :
    routerPoolSplitToken Nat hashlen hashToTag token = .error .typeError :=
  rfl

theorem dlookup_eq_none_of_not_mem {κ ν : Type} [DecidableEq κ] (l : List (κ × ν))
    (k : κ) (h : ¬ k ∈ l.map Prod.fst) : dlookup l k = none := by
  induction l with
  | nil => rfl
  | cons a rest ih =>
    obtain ⟨k1, v⟩ := a
    have h1 : ¬ (k = k1 ∨ k ∈ rest.map Prod.fst) := by simpa using h
    have hne : ¬ (k1 = k) := fun he => h1 (Or.inl he.symm)
    simp only [dlookup, if_neg hne]
    exact ih (fun hm => h1 (Or.inr hm))

theorem dcontains_derase_self {κ ν : Type} [DecidableEq κ] (l : List (κ × ν))
    (k : κ) (hnd : (l.map Prod.fst).Nodup) : dcontains (derase l k) k = false := by
  induction l with
  | nil => rfl
  | cons a rest ih =>
    obtain ⟨k1, v⟩ := a
    have hnd1 : k1 ∉ rest.map Prod.fst ∧ (rest.map Prod.fst).Nodup := by
      rw [List.map_cons, List.nodup_cons] at hnd
      exact hnd
    by_cases he : k1 = k
    · have hred : derase ((k1, v) :: rest) k = rest := by
        simp [derase, he]
      rw [hred]
      unfold dcontains
      rw [dlookup_eq_none_of_not_mem rest k (fun hm => hnd1.1 (by rw [he]; exact hm))]
      rfl
    · have hred : derase ((k1, v) :: rest) k = (k1, v) :: derase rest k := by
        simp [derase, he]
      rw [hred]
      unfold dcontains
      simp only [dlookup, if_neg he]
      exact ih hnd1.2

theorem lelem_eq_false_of_not_mem {α : Type} [DecidableEq α] (l : List α) (x : α)
    (h : ¬ x ∈ l) : lelem x l = false := by
  induction l with
  | nil => rfl
  | cons a rest ih =>
    have hne : ¬ (a = x) := fun he => h (by rw [← he]; exact List.mem_cons_self a rest)
    simp only [lelem, if_neg hne]
    exact ih (fun hm => h (List.mem_cons_of_mem a hm))

theorem lelem_lremove_self {α : Type} [DecidableEq α] (l : List α) (x : α)
    (hnd : l.Nodup) : lelem x (lremove l x) = false := by
  induction l with
  | nil => rfl
  | cons a rest ih =>
    have hnd1 := List.nodup_cons.mp hnd
    by_cases he : a = x
    · have hred : lremove (a :: rest) x = rest := by
        simp [lremove, he]
      rw [hred]
      exact lelem_eq_false_of_not_mem rest x (fun hm => hnd1.1 (by rw [he]; exact hm))
    · have hred : lremove (a :: rest) x = a :: lremove rest x := by
        simp [lremove, he]
      rw [hred]
      simp only [lelem, if_neg he]
      exact ih hnd1.2

theorem token_chain_loop_spec (h : HashFn) (lifecycle : List (DKey × Nat)) (it : Nat) :
    ∀ (fuel : Nat) (p n : String), token_chain_loop h lifecycle it fuel p = some n →
      (∃ q, n = h (some q, it)) ∧ dcontains lifecycle (DKey.tok n) = false := by
  intro fuel
  induction fuel with
  | zero => intro p n hl; simp [token_chain_loop] at hl
  | succ fuel ih =>
    intro p n hl
    simp only [token_chain_loop] at hl
    by_cases hc : dcontains lifecycle (DKey.tok (h (some p, it))) = true
    · rw [if_pos hc] at hl
      exact ih _ _ hl
    · rw [if_neg hc] at hl
      have hn : h (some p, it) = n := by injection hl
      refine ⟨⟨p, hn.symm⟩, ?_⟩
      rw [← hn]
      simpa using hc

theorem generate_next_token_spec {σ : Type} (h : HashFn) (fuel : Nat) (s s2 : ExecState σ)
    (hg : generate_next_token h fuel s = some s2) :
    s2.itoken = s.itoken + 1
    ∧ (∃ p, s2.strtoken = h (p, s.itoken + 1))
    ∧ dcontains s.external_request_response_previous_action (DKey.tok s2.strtoken) = false
    ∧ s2.external_requests_queue = s.external_requests_queue
    ∧ s2.external_requests_queue_data = s.external_requests_queue_data
    ∧ s2.external_request_response_previous_action
        = s.external_request_response_previous_action
    ∧ s2.external_requests_to_cancel = s.external_requests_to_cancel
    ∧ s2.internal_requests_queue = s.internal_requests_queue
    ∧ s2.internal_requests_data = s.internal_requests_data
    ∧ s2.internal_responses = s.internal_responses
    ∧ s2.external_responses = s.external_responses := by
  simp only [generate_next_token] at hg
  cases hl : token_chain_loop h s.external_request_response_previous_action
      (s.itoken + 1) fuel s.strtoken with
  | none => rw [hl] at hg; simp at hg
  | some n =>
    rw [hl] at hg
    have hs2 : { s with itoken := s.itoken + 1, strtoken := n } = s2 := by injection hg
    obtain ⟨⟨q, hq⟩, hfresh⟩ :=
      token_chain_loop_spec h s.external_request_response_previous_action
        (s.itoken + 1) fuel s.strtoken n hl
    subst hs2
    exact ⟨rfl, ⟨some q, by simpa using hq⟩, by simpa using hfresh,
      rfl, rfl, rfl, rfl, rfl, rfl, rfl, rfl⟩

/-- C2: `queue_request` raises `PoolFullException` exactly when the lifecycle
dict already has at least `max_handle_requests_and_responses` keys (in which
case the state is unchanged: the embedding returns before any mutation);
otherwise it returns the current `strtoken`, appends it to `external_queue`,
records the request and the lifecycle timestamp under that token, and advances
the token generator (counter bumped, fresh `strtoken` generated). -/
theorem C2_queue_request_spec {σ : Type} (h : HashFn) (fuel : Nat) (s : ExecState σ)
    (x : AbstractRequest σ) (now : Nat) :
    (queue_request h fuel s x now = .poolFull ↔
        s.max_handle_requests_and_responses
          ≤ s.external_request_response_previous_action.length)
    ∧ (∀ t s2, queue_request h fuel s x now = .ok t s2 →
        t = s.strtoken
        ∧ s2.external_requests_queue = s.external_requests_queue ++ [t]
        ∧ s2.external_requests_queue_data = dinsert s.external_requests_queue_data t x
        ∧ s2.external_request_response_previous_action
            = dinsert s.external_request_response_previous_action (DKey.tok t) now
        ∧ s2.itoken = s.itoken + 1
        ∧ (∃ p, s2.strtoken = h (p, s2.itoken))) := by
  by_cases hc : s.max_handle_requests_and_responses
      ≤ s.external_request_response_previous_action.length
  · constructor
    · simp [queue_request, hc]
    · intro t s2 hq
      simp [queue_request, hc] at hq
  · constructor
    · constructor
      · intro hq
        simp only [queue_request, if_neg hc] at hq
        split at hq <;> simp at hq
      · intro hle
        exact absurd hle hc
    · intro t s2 hq
      simp only [queue_request, if_neg hc] at hq
      split at hq
      · simp at hq
      · rename_i s3 heq
        rw [QueueOutcome.ok.injEq] at hq
        obtain ⟨ht, hs3⟩ := hq
        subst ht
        subst hs3
        obtain ⟨hit, ⟨p, hp⟩, _, hque, hdata, hlife, _⟩ :=
          generate_next_token_spec h fuel _ _ heq
        refine ⟨rfl, ?_, ?_, ?_, ?_, ⟨p, ?_⟩⟩
        · simpa using hque
        · simpa using hdata
        · simpa using hlife
        · simpa using hit
        · rw [hp, hit]

/-- Witness for C2: a zero-capacity executor rejects the first submit with
`PoolFullException`, and the fixture submit on the fresh executor returns the
executor's current `strtoken`. -/
theorem C2_queue_request_spec_witness :
    queue_request cHash 3 (initExec Nat cHash 0 300) ⟨(none : Option Nat)⟩ 5
        = QueueOutcome.poolFull
    ∧ "x" = execFix.strtoken :=
  ⟨(C2_queue_request_spec cHash 3 (initExec Nat cHash 0 300) ⟨none⟩ 5).1.mpr (by decide),
   ((C2_queue_request_spec cHash 9 execFix ⟨some 42⟩ 0).2 "x" bugS1 (by decide)).1⟩

/-- C3: `poll_response` on a token that is not a lifecycle key returns the
invalid-token `ErrorResponse` with the state unchanged; on a known token with
no stored response it returns `none` with the state unchanged; on a stored
response it returns it and removes both the response entry and the lifecycle
entry, so that (for duplicate-free lifecycle keys, as in every reachable
state) a second poll of the same token returns the invalid-token error. -/
theorem C3_poll_response_spec {σ : Type} (s : ExecState σ) (tok : String) :
    (dcontains s.external_request_response_previous_action (DKey.tok tok) = false →
        poll_response s tok
          = (some (ErrorResponse σ "Invalid token! Tokens must be obtained via queue_request!"), s))
    ∧ (dcontains s.external_request_response_previous_action (DKey.tok tok) = true →
        dlookup s.external_responses (DKey.tok tok) = none →
        poll_response s tok = (none, s))
    ∧ (∀ r, dcontains s.external_request_response_previous_action (DKey.tok tok) = true →
        dlookup s.external_responses (DKey.tok tok) = some r →
        (poll_response s tok).1 = some r
        ∧ (poll_response s tok).2.external_responses
            = derase s.external_responses (DKey.tok tok)
        ∧ (poll_response s tok).2.external_request_response_previous_action
            = derase s.external_request_response_previous_action (DKey.tok tok)
        ∧ ((s.external_request_response_previous_action.map Prod.fst).Nodup →
            (poll_response (poll_response s tok).2 tok).1
              = some (ErrorResponse σ
                  "Invalid token! Tokens must be obtained via queue_request!"))) := by
  refine ⟨?_, ?_, ?_⟩
  · intro hc
    simp [poll_response, hc]
  · intro hc hd
    simp [poll_response, hc, hd]
  · intro r hc hd
    refine ⟨by simp [poll_response, hc, hd], by simp [poll_response, hc, hd],
      by simp [poll_response, hc, hd], ?_⟩
    intro hnd
    have hstate : (poll_response s tok).2.external_request_response_previous_action
        = derase s.external_request_response_previous_action (DKey.tok tok) := by
      simp [poll_response, hc, hd]
    have hfresh : dcontains
        ((poll_response s tok).2.external_request_response_previous_action)
        (DKey.tok tok) = false := by
      rw [hstate]
      exact dcontains_derase_self _ _ hnd
    generalize (poll_response s tok).2 = s1 at hfresh ⊢
    simp [poll_response, hfresh]

/-- Witness for C3: polling the round-trip fixture returns the stored
response, and the second poll returns the invalid-token error. -/
theorem C3_poll_response_spec_witness :
    (poll_response (poll_response rtReadyAccept "x").2 "x").1
      = some (ErrorResponse Nat "Invalid token! Tokens must be obtained via queue_request!") :=
  ((C3_poll_response_spec rtReadyAccept "x").2.2 ⟨false, none, some 7⟩
    (by decide) (by decide)).2.2.2 (by decide)

theorem accept_ok_queue {σ : Type} (s : ExecState σ) (t : String) (r : AbstractResponse σ)
    (s2 : ExecState σ) (hq : accept s t r = (s2, none)) :
    s2.internal_requests_queue = lremove s.internal_requests_queue t := by
  by_cases hc : lelem t s.internal_requests_queue = true
  · cases hd : dlookup s.internal_requests_data t with
    | none => simp [accept, hc, hd] at hq
    | some dat =>
      simp only [accept, if_pos hc, hd, Prod.mk.injEq] at hq
      rw [← hq.1]
  · simp only [accept, if_neg hc, Prod.mk.injEq] at hq
    exact absurd hq.2 (by simp)

theorem reject_ok_queue {σ : Type} (s : ExecState σ) (t : String) (m : String)
    (s2 : ExecState σ) (hq : reject s t m = (s2, none)) :
    s2.internal_requests_queue = lremove s.internal_requests_queue t := by
  by_cases hc : lelem t s.internal_requests_queue = true
  · cases hd : dlookup s.internal_requests_data t with
    | none => simp [reject, hc, hd] at hq
    | some dat =>
      simp only [reject, if_pos hc, hd, Prod.mk.injEq] at hq
      rw [← hq.1]
  · simp only [reject, if_neg hc, Prod.mk.injEq] at hq
    exact absurd hq.2 (by simp)

/-- C10: calling `accept` or `reject` on a token that is not in the internal
queue raises `ValueError` and leaves the state unchanged; and after a
successful `accept` or `reject` the token has left the (duplicate-free)
internal queue, so accepting or rejecting it again raises `ValueError` — a
token is accepted or rejected at most once. -/
theorem C10_accept_reject_spec {σ : Type} (s : ExecState σ) (t : String)
    (r : AbstractResponse σ) (m : String) :
    (lelem t s.internal_requests_queue = false →
        accept s t r = (s, some PyErr.valueError)
        ∧ reject s t m = (s, some PyErr.valueError))
    ∧ (s.internal_requests_queue.Nodup →
        ∀ s2, accept s t r = (s2, none) ∨ reject s t m = (s2, none) →
          (accept s2 t r).2 = some PyErr.valueError
          ∧ (reject s2 t m).2 = some PyErr.valueError) := by
  constructor
  · intro hc
    constructor <;> simp [accept, reject, hc]
  · intro hnd s2 hok
    have hq : s2.internal_requests_queue = lremove s.internal_requests_queue t := by
      cases hok with
      | inl ha => exact accept_ok_queue s t r s2 ha
      | inr hr => exact reject_ok_queue s t m s2 hr
    have hgone : lelem t s2.internal_requests_queue = false := by
      rw [hq]
      exact lelem_lremove_self _ _ hnd
    constructor <;> simp [accept, reject, hgone]

/-- Witness for C10: on the fresh executor (empty internal queue) `accept`
raises `ValueError` and changes nothing. -/
theorem C10_accept_reject_spec_witness :
    accept execFix "a" ⟨false, none, none⟩ = (execFix, some PyErr.valueError)
    ∧ reject execFix "a" "m" = (execFix, some PyErr.valueError) :=
  (C10_accept_reject_spec execFix "a" ⟨false, none, none⟩ "m").1 (by decide)

theorem poll_response_pres {σ : Type} (s : ExecState σ) (tok : String) :
    (poll_response s tok).2.itoken = s.itoken
    ∧ (poll_response s tok).2.strtoken = s.strtoken := by
  by_cases hc : dcontains s.external_request_response_previous_action (DKey.tok tok) = true
  · cases hd : dlookup s.external_responses (DKey.tok tok) <;> simp [poll_response, hc, hd]
  · simp [poll_response, hc]

theorem cleanup_pass_pres {σ : Type} (now ct : Nat) :
    ∀ (ks : List DKey) (s : ExecState σ),
      (cleanup_pass now ct ks s).1.itoken = s.itoken
      ∧ (cleanup_pass now ct ks s).1.strtoken = s.strtoken := by
  intro ks
  induction ks with
  | nil => intro s; exact ⟨rfl, rfl⟩
  | cons k rest ih =>
    intro s
    cases hd : dlookup s.external_request_response_previous_action k with
    | none => simp [cleanup_pass, hd]
    | some prev =>
      by_cases ht : ct < now - prev
      · simp only [cleanup_pass, hd, if_pos ht]
        exact ⟨(ih _).1, (ih _).2⟩
      · simp only [cleanup_pass, hd, if_neg ht]
        exact ih s

theorem cleanup_old_responses_pres {σ : Type} (s : ExecState σ) (o : Option Nat) (now : Nat) :
    (cleanup_old_responses s o now).1.itoken = s.itoken
    ∧ (cleanup_old_responses s o now).1.strtoken = s.strtoken :=
  cleanup_pass_pres now (o.getD s.old_cleanup_time) (s.external_responses.map Prod.fst) s

theorem move_external_to_internal_pres {σ : Type} (s : ExecState σ) :
    (move_external_to_internal s).1.itoken = s.itoken
    ∧ (move_external_to_internal s).1.strtoken = s.strtoken := by
  rcases hdd : drain_external_data s.external_requests_queue s.external_requests_queue_data
      ([] : List (String × AbstractRequest σ)) with ⟨rem, pairs, err⟩
  cases err <;> simp [move_external_to_internal, hdd]

theorem move_fold_pres {σ : Type} (now : Nat) :
    ∀ (l : List (DKey × AbstractResponse σ)) (s : ExecState σ),
      (l.foldl
        (fun st p =>
          { st with
              external_responses := dinsert st.external_responses p.1 p.2
              external_request_response_previous_action :=
                dinsert st.external_request_response_previous_action p.1 now })
        s).itoken = s.itoken
      ∧ (l.foldl
        (fun st p =>
          { st with
              external_responses := dinsert st.external_responses p.1 p.2
              external_request_response_previous_action :=
                dinsert st.external_request_response_previous_action p.1 now })
        s).strtoken = s.strtoken := by
  intro l
  induction l with
  | nil => intro s; exact ⟨rfl, rfl⟩
  | cons a rest ih =>
    intro s
    simp only [List.foldl_cons]
    exact ⟨(ih _).1, (ih _).2⟩

theorem move_internal_to_external_pres {σ : Type} (s : ExecState σ) (now : Nat) :
    (move_internal_to_external s now).itoken = s.itoken
    ∧ (move_internal_to_external s now).strtoken = s.strtoken :=
  move_fold_pres now s.internal_responses { s with internal_responses := [] }

theorem cancel_internal_pass_pres {σ : Type} :
    ∀ (l : List String) (s : ExecState σ),
      (cancel_internal_pass l s).1.itoken = s.itoken
      ∧ (cancel_internal_pass l s).1.strtoken = s.strtoken := by
  intro l
  induction l with
  | nil => intro s; exact ⟨rfl, rfl⟩
  | cons t rest ih =>
    intro s
    by_cases hc : lelem t s.internal_requests_queue = true
    · cases hd : dlookup s.internal_requests_data t with
      | none => simp [cancel_internal_pass, hc, hd]
      | some dat =>
        simp only [cancel_internal_pass, if_pos hc, hd]
        exact ⟨(ih _).1, (ih _).2⟩
    · simp only [cancel_internal_pass, if_neg hc]
      exact ih s

theorem cancel_external_pass_pres {σ : Type} (now : Nat) :
    ∀ (l : List String) (s : ExecState σ),
      (cancel_external_pass now l s).1.itoken = s.itoken
      ∧ (cancel_external_pass now l s).1.strtoken = s.strtoken := by
  intro l
  induction l with
  | nil => intro s; exact ⟨rfl, rfl⟩
  | cons t rest ih =>
    intro s
    by_cases hc : lelem t s.external_requests_queue = true
    · cases hd : dlookup s.external_requests_queue_data t with
      | none => simp [cancel_external_pass, hc, hd]
      | some dat => simp [cancel_external_pass, hc, hd]
    · simp only [cancel_external_pass, if_neg hc]
      exact ih s

theorem handle_cancellations_pres {σ : Type} (s : ExecState σ) (now : Nat) :
    (handle_cancellations s now).1.itoken = s.itoken
    ∧ (handle_cancellations s now).1.strtoken = s.strtoken := by
  have hA := cancel_internal_pass_pres s.external_requests_to_cancel
      ({ s with external_requests_to_cancel := [] })
  by_cases he : s.external_requests_to_cancel.isEmpty = true
  · simp [handle_cancellations, he]
  · simp only [handle_cancellations, if_neg he]
    cases herr : (cancel_internal_pass s.external_requests_to_cancel
        ({ s with external_requests_to_cancel := [] })).2 with
    | some e =>
      simp only [herr]
      exact ⟨hA.1, hA.2⟩
    | none =>
      simp only [herr]
      have hB := cancel_external_pass_pres now s.external_requests_to_cancel
          ((cancel_internal_pass s.external_requests_to_cancel
            ({ s with external_requests_to_cancel := [] })).1)
      exact ⟨hB.1.trans hA.1, hB.2.trans hA.2⟩

theorem accept_pres {σ : Type} (s : ExecState σ) (t : String) (r : AbstractResponse σ) :
    (accept s t r).1.itoken = s.itoken ∧ (accept s t r).1.strtoken = s.strtoken := by
  by_cases hc : lelem t s.internal_requests_queue = true
  · cases hd : dlookup s.internal_requests_data t <;> simp [accept, hc, hd]
  · simp [accept, hc]

theorem reject_pres {σ : Type} (s : ExecState σ) (t : String) (m : String) :
    (reject s t m).1.itoken = s.itoken ∧ (reject s t m).1.strtoken = s.strtoken := by
  by_cases hc : lelem t s.internal_requests_queue = true
  · cases hd : dlookup s.internal_requests_data t <;> simp [reject, hc, hd]
  · simp [reject, hc]

theorem apply_user_cmds_pres {σ : Type} :
    ∀ (cmds : List (UserCmd σ)) (s : ExecState σ),
      (apply_user_cmds cmds s).1.itoken = s.itoken
      ∧ (apply_user_cmds cmds s).1.strtoken = s.strtoken := by
  intro cmds
  induction cmds with
  | nil => intro s; exact ⟨rfl, rfl⟩
  | cons c rest ih =>
    intro s
    cases c with
    | acceptCmd t resp =>
      have ha := accept_pres s t resp
      cases herr : (accept s t resp).2 with
      | some e =>
        simp only [apply_user_cmds, herr]
        exact ⟨ha.1, ha.2⟩
      | none =>
        simp only [apply_user_cmds, herr]
        exact ⟨((ih _).1).trans ha.1, ((ih _).2).trans ha.2⟩
    | rejectCmd t m =>
      have ha := reject_pres s t m
      cases herr : (reject s t m).2 with
      | some e =>
        simp only [apply_user_cmds, herr]
        exact ⟨ha.1, ha.2⟩
      | none =>
        simp only [apply_user_cmds, herr]
        exact ⟨((ih _).1).trans ha.1, ((ih _).2).trans ha.2⟩

theorem handle_all_requests_step_pres {σ : Type} (handler : Handler σ) (s : ExecState σ) :
    (handle_all_requests_step handler s).itoken = s.itoken
    ∧ (handle_all_requests_step handler s).strtoken = s.strtoken := by
  have ha := apply_user_cmds_pres
      (handler s.internal_requests_queue s.internal_requests_data) s
  cases herr : (apply_user_cmds
      (handler s.internal_requests_queue s.internal_requests_data) s).2 with
  | some e =>
    simp only [handle_all_requests_step, herr]
    exact ⟨ha.1, ha.2⟩
  | none =>
    simp only [handle_all_requests_step, herr]
    exact ⟨ha.1, ha.2⟩

theorem pstep_pres {σ : Type} (f : ExecState σ → ExecState σ × Option PyErr)
    (pr : ExecState σ × Option PyErr)
    (hf : ∀ st, (f st).1.itoken = st.itoken ∧ (f st).1.strtoken = st.strtoken) :
    (pstep f pr).1.itoken = pr.1.itoken ∧ (pstep f pr).1.strtoken = pr.1.strtoken := by
  cases herr : pr.2 with
  | some e => simp [pstep, herr]
  | none =>
    simp only [pstep, herr]
    exact hf pr.1

theorem iter_chain_pres {σ : Type} (s0 : ExecState σ) (now : Nat) :
    (pstep (fun st => handle_cancellations st now)
      (pstep (fun st => if st.internal_iter_count % 10 == 0
          then cleanup_old_responses st none now else (st, none))
        (pstep (fun st => (move_internal_to_external st now, none))
          (move_external_to_internal s0)))).1.itoken = s0.itoken
    ∧ (pstep (fun st => handle_cancellations st now)
      (pstep (fun st => if st.internal_iter_count % 10 == 0
          then cleanup_old_responses st none now else (st, none))
        (pstep (fun st => (move_internal_to_external st now, none))
          (move_external_to_internal s0)))).1.strtoken = s0.strtoken := by
  have h1 := move_external_to_internal_pres s0
  have h2 := pstep_pres (fun st => (move_internal_to_external st now, none))
      (move_external_to_internal s0)
      (fun st => ⟨(move_internal_to_external_pres st now).1,
        (move_internal_to_external_pres st now).2⟩)
  have h3 := pstep_pres
      (fun st => if st.internal_iter_count % 10 == 0
        then cleanup_old_responses st none now else (st, none))
      (pstep (fun st => (move_internal_to_external st now, none))
        (move_external_to_internal s0))
      (fun st => by
        dsimp only
        by_cases hm : (st.internal_iter_count % 10 == 0) = true
        · simp only [if_pos hm]
          exact cleanup_old_responses_pres st none now
        · rw [if_neg hm]
          exact ⟨rfl, rfl⟩)
  have h4 := pstep_pres (fun st => handle_cancellations st now)
      (pstep (fun st => if st.internal_iter_count % 10 == 0
          then cleanup_old_responses st none now else (st, none))
        (pstep (fun st => (move_internal_to_external st now, none))
          (move_external_to_internal s0)))
      (fun st => handle_cancellations_pres st now)
  exact ⟨h4.1.trans (h3.1.trans (h2.1.trans h1.1)),
    h4.2.trans (h3.2.trans (h2.2.trans h1.2))⟩

theorem final_step_pres {σ : Type} (handler : Handler σ) (R : ExecState σ × Option PyErr) :
    ((match R.2 with
      | some e => (R.1, some e)
      | none => (handle_all_requests_step handler R.1, none)) :
        ExecState σ × Option PyErr).1.itoken = R.1.itoken
    ∧ ((match R.2 with
      | some e => (R.1, some e)
      | none => (handle_all_requests_step handler R.1, none)) :
        ExecState σ × Option PyErr).1.strtoken = R.1.strtoken := by
  cases herr : R.2 with
  | some e => simp [herr]
  | none =>
    simp only [herr]
    exact ⟨(handle_all_requests_step_pres handler R.1).1,
      (handle_all_requests_step_pres handler R.1).2⟩

theorem process_iteration_pres {σ : Type} (handler : Handler σ) (s : ExecState σ) (now : Nat) :
    (process_iteration handler s now).1.itoken = s.itoken
    ∧ (process_iteration handler s now).1.strtoken = s.strtoken := by
  have hc := iter_chain_pres { s with internal_iter_count := s.internal_iter_count + 1 } now
  have hf := final_step_pres handler
      (pstep (fun st => handle_cancellations st now)
        (pstep (fun st => if st.internal_iter_count % 10 == 0
            then cleanup_old_responses st none now else (st, none))
          (pstep (fun st => (move_internal_to_external st now, none))
            (move_external_to_internal
              { s with internal_iter_count := s.internal_iter_count + 1 }))))
  exact ⟨hf.1.trans hc.1, hf.2.trans hc.2⟩

theorem queue_request_ok_tokengen {σ : Type} (h : HashFn) (fuel : Nat) (s : ExecState σ)
    (x : AbstractRequest σ) (now : Nat) (t : String) (s1 : ExecState σ)
    (hq : queue_request h fuel s x now = .ok t s1) :
    t = s.strtoken ∧ s1.itoken = s.itoken + 1 ∧ (∃ p, s1.strtoken = h (p, s1.itoken)) := by
  by_cases hc : s.max_handle_requests_and_responses
      ≤ s.external_request_response_previous_action.length
  · simp [queue_request, hc] at hq
  · simp only [queue_request, if_neg hc] at hq
    split at hq
    · simp at hq
    · rename_i s3 heq
      rw [QueueOutcome.ok.injEq] at hq
      obtain ⟨ht, hs3⟩ := hq
      subst ht
      subst hs3
      obtain ⟨hit, ⟨p, hp⟩, _⟩ := generate_next_token_spec h fuel _ _ heq
      exact ⟨rfl, by simpa using hit, ⟨p, by rw [hp, hit]⟩⟩

theorem run_ops_tokens {σ : Type} (h : HashFn) (hinj : ∀ a b, h a = h b → a.2 = b.2)
    (fuel : Nat) (handler : Handler σ) :
    ∀ (ops : List (ExecOp σ)) (s : ExecState σ),
      (∃ p, s.strtoken = h (p, s.itoken)) →
      ∀ s2 toks, run_ops h fuel handler s ops = some (s2, toks) →
        toks.Pairwise (fun a b => a ≠ b)
        ∧ ∀ t ∈ toks, ∃ p c, t = h (p, c) ∧ s.itoken ≤ c := by
  intro ops
  induction ops with
  | nil =>
    intro s hs s2 toks hrun
    simp only [run_ops, Option.some.injEq, Prod.mk.injEq] at hrun
    obtain ⟨-, htoks⟩ := hrun
    subst htoks
    exact ⟨List.Pairwise.nil, by simp⟩
  | cons op rest ih =>
    intro s hs s2 toks hrun
    cases op with
    | opQueue x now =>
      simp only [run_ops] at hrun
      cases hq : queue_request h fuel s x now with
      | poolFull =>
        rw [hq] at hrun
        exact ih s hs s2 toks hrun
      | fuelOut s1 =>
        rw [hq] at hrun
        simp at hrun
      | ok t s1 =>
        rw [hq] at hrun
        obtain ⟨⟨s3, ts⟩, hr3, hpair⟩ := Option.map_eq_some'.mp hrun
        rw [Prod.mk.injEq] at hpair
        obtain ⟨hs2eq, htoks⟩ := hpair
        subst htoks
        obtain ⟨ht, hit, hp1⟩ := queue_request_ok_tokengen h fuel s x now t s1 hq
        obtain ⟨hpw, hbound⟩ := ih s1 hp1 s3 ts hr3
        obtain ⟨p0, hs0⟩ := hs
        constructor
        · refine List.Pairwise.cons ?_ hpw
          intro u hu heq2
          obtain ⟨pu, cu, hueq, hcu⟩ := hbound u hu
          have hhh : h (p0, s.itoken) = h (pu, cu) := by
            rw [← hs0, ← ht, heq2, hueq]
          have hce : s.itoken = cu := hinj _ _ hhh
          rw [hit] at hcu
          omega
        · intro u hu
          rcases List.mem_cons.mp hu with hu1 | hu2
          · exact ⟨p0, s.itoken, by rw [hu1, ht, hs0], le_refl _⟩
          · obtain ⟨pu, cu, hueq, hcu⟩ := hbound u hu2
            refine ⟨pu, cu, hueq, ?_⟩
            rw [hit] at hcu
            omega
    | opPoll t =>
      simp only [run_ops] at hrun
      have hpres := poll_response_pres s t
      obtain ⟨p0, hs0⟩ := hs
      obtain ⟨hpw, hbound⟩ := ih _ ⟨p0, by rw [hpres.2, hpres.1, hs0]⟩ s2 toks hrun
      refine ⟨hpw, fun u hu => ?_⟩
      obtain ⟨pu, cu, hueq, hcu⟩ := hbound u hu
      rw [hpres.1] at hcu
      exact ⟨pu, cu, hueq, hcu⟩
    | opCancel t =>
      simp only [run_ops] at hrun
      exact ih (cancel_request s t) hs s2 toks hrun
    | opIterate now =>
      simp only [run_ops] at hrun
      have hpres := process_iteration_pres handler s now
      obtain ⟨p0, hs0⟩ := hs
      obtain ⟨hpw, hbound⟩ := ih _ ⟨p0, by rw [hpres.2, hpres.1, hs0]⟩ s2 toks hrun
      refine ⟨hpw, fun u hu => ?_⟩
      obtain ⟨pu, cu, hueq, hcu⟩ := hbound u hu
      rw [hpres.1] at hcu
      exact ⟨pu, cu, hueq, hcu⟩
    | opCleanup o now =>
      simp only [run_ops] at hrun
      have hpres := cleanup_old_responses_pres s o now
      obtain ⟨p0, hs0⟩ := hs
      obtain ⟨hpw, hbound⟩ := ih _ ⟨p0, by rw [hpres.2, hpres.1, hs0]⟩ s2 toks hrun
      refine ⟨hpw, fun u hu => ?_⟩
      obtain ⟨pu, cu, hueq, hcu⟩ := hbound u hu
      rw [hpres.1] at hcu
      exact ⟨pu, cu, hueq, hcu⟩

/-- C4: with SHA-256 modelled as an abstract hash whose outputs determine the
generation counter (collision-freeness of the fixed-width hash input), (a) the
candidate produced by `generate_next_token` is never a key of
`external_lifecycle` at generation time (the retry loop hashes on until it
leaves the live key set), and (b) any two tokens returned by distinct
successful `queue_request` calls in a run of public operations and worker
iterations started from a fresh executor are distinct. -/
theorem C4_token_uniqueness (h : HashFn) (hinj : ∀ a b, h a = h b → a.2 = b.2) :
    (∀ (σ : Type) (fuel : Nat) (s s2 : ExecState σ),
        generate_next_token h fuel s = some s2 →
        dcontains s.external_request_response_previous_action (DKey.tok s2.strtoken) = false)
    ∧ (∀ (σ : Type) (fuel : Nat) (handler : Handler σ) (maxH cleanupT : Nat)
        (ops : List (ExecOp σ)) (s2 : ExecState σ) (toks : List String),
        run_ops h fuel handler (initExec σ h maxH cleanupT) ops = some (s2, toks) →
        toks.Pairwise (fun a b => a ≠ b)) := by
  constructor
  · intro σ fuel s s2 hg
    exact (generate_next_token_spec h fuel s s2 hg).2.2.1
  · intro σ fuel handler maxH cleanupT ops s2 toks hrun
    exact (run_ops_tokens h hinj fuel handler ops (initExec σ h maxH cleanupT)
      ⟨none, rfl⟩ s2 toks hrun).1

/-- Witness for C4: on the concrete counter-determined hash `cHash`, a run
with two submits returns the two distinct tokens `"x"` and `"xx"`. -/
theorem C4_token_uniqueness_witness :
    List.Pairwise (fun a b => a ≠ b) ["x", "xx"] := by
  have hinj : ∀ a b, cHash a = cHash b → a.2 = b.2 := by
    intro a b hab
    have hdat : List.replicate a.2 'x' = List.replicate b.2 'x' :=
      congrArg String.data hab
    have hlen := congrArg List.length hdat
    simpa using hlen
  have hmap : (run_ops cHash 9 acceptHandler (initExec Nat cHash 10 300)
      [ExecOp.opQueue ⟨some 1⟩ 0, ExecOp.opQueue ⟨some 2⟩ 0]).map Prod.snd
      = some ["x", "xx"] := by decide
  obtain ⟨⟨sf, ts⟩, hr, hsnd⟩ := Option.map_eq_some'.mp hmap
  have hpw := (C4_token_uniqueness cHash hinj).2 Nat 9 acceptHandler 10 300
      [ExecOp.opQueue ⟨some 1⟩ 0, ExecOp.opQueue ⟨some 2⟩ 0] sf ts hr
  have hts : ts = ["x", "xx"] := hsnd
  rw [hts] at hpw
  exact hpw

end BHA
